import Mathlib

/-!
Verification of `build.py` from QuiveringZen/docker-img-version.

Strings are embedded as `List Char`. Python's `re` module and `int()` are
modelled over ASCII characters:
  * the semver regex `^(0|[1-9]\d*)\.(0|[1-9]\d*)\.(0|[1-9]\d*)$` is modelled
    by splitting on `.` into exactly three numeral components; Python's `$`
    also matches just before a single newline that ends the string, so
    `is_valid` additionally accepts a match of the core pattern followed by
    one trailing `'\n'`;
  * Python `int()` strips surrounding whitespace, accepts an optional sign,
    and accepts digit groups separated by single underscores, with
    arbitrary-precision result.
-/

set_option autoImplicit false

deriving instance DecidableEq for Except

namespace DockerImgVersion

/-- The kind of version change passed as the `-v` CLI argument; CmdArgs.get_cmd_args
rejects any value outside `['major', 'minor', 'patch']`. -/
inductive BumpKind where
  | major
  | minor
  | patch
deriving DecidableEq, Repr

/-- The failure exits of the script, one per distinct `print(...); exit(1)` site
in the version-handling code: malformed version (the `is_valid` / parse
failures), matching current and new versions, failed bump preconditions, and a
non-sequential increment. -/
inductive BuildError where
  | malformedVersion
  | noChange
  | invalidBumpPreconditions
  | nonSequentialIncrement
deriving DecidableEq, Repr

/-- `str.split(".")`: split a string on the dot character; always returns at
least one (possibly empty) piece. -/
def splitOnDot : List Char → List (List Char)
  | [] => [[]]
  | c :: rest =>
    if c = '.' then [] :: splitOnDot rest
    else
      match splitOnDot rest with
      | [] => [[c]]
      | p :: ps => (c :: p) :: ps

/-- One component of the semver regex: `(0|[1-9]\d*)` — either the single
digit `0`, or a nonzero digit followed by digits (no leading zero). -/
def isNumeral : List Char → Bool
  | [] => false
  | c :: rest =>
    if c = '0' then rest = ([] : List Char)
    else c.isDigit && rest.all Char.isDigit

/-- Whole-string match of `^(0|[1-9]\d*)\.(0|[1-9]\d*)\.(0|[1-9]\d*)$`:
exactly three dot-separated numeral components. (The components contain no
dot, so the match is equivalent to splitting on dots.) -/
def matchesSemverPattern (s : List Char) : Bool :=
  match splitOnDot s with
  | [a, b, c] => isNumeral a && isNumeral b && isNumeral c
  | _ => false

/-- `SemVersion.is_valid`: `re.match("^(0|[1-9]\d*)\.(0|[1-9]\d*)\.(0|[1-9]\d*)$", raw)`.
Python's `$` matches at the end of the string or just before a newline at the
end of the string, and no part of the pattern can consume `'\n'`, so the regex
accepts exactly the whole-string matches plus those followed by one final
newline. -/
def is_valid (s : List Char) : Bool :=
  matchesSemverPattern s ||
    (match s.reverse with
     | '\n' :: r => matchesSemverPattern r.reverse
     | _ => false)

/-- Python whitespace as stripped by `int()` (ASCII fragment). -/
def isPySpace (c : Char) : Bool :=
  c = ' ' || c = '\t' || c = '\n' || c = '\r' || c = '\x0b' || c = '\x0c'

/-- Strip leading and trailing Python whitespace, as `int()` does. -/
def pyStrip (s : List Char) : List Char :=
  ((s.dropWhile isPySpace).reverse.dropWhile isPySpace).reverse

/-- Numeric value of an ASCII digit. -/
def digitVal (c : Char) : Nat := c.toNat - '0'.toNat

/-- Value of a big-endian string of decimal digits. -/
def valOfDigits (s : List Char) : Nat :=
  s.foldl (fun a c => a * 10 + digitVal c) 0

/-- Continuation of the digit grammar of Python `int()` after the first digit:
further digits, with single underscores allowed between digits. -/
def pyDigitsAux (acc : Nat) : List Char → Option Nat
  | [] => some acc
  | c :: rest =>
    if c.isDigit then pyDigitsAux (acc * 10 + digitVal c) rest
    else if c = '_' then
      match rest with
      | [] => none
      | c2 :: rest2 =>
        if c2.isDigit then pyDigitsAux (acc * 10 + digitVal c2) rest2 else none
    else none

/-- The unsigned digit grammar of Python `int()`: `digit (['_'] digit)*`. -/
def pyIntDigits : List Char → Option Nat
  | [] => none
  | c :: rest => if c.isDigit then pyDigitsAux (digitVal c) rest else none

/-- Python `int(s)`: strip whitespace, optional `+`/`-` sign, then decimal
digits (underscore grouping allowed); `none` models the `ValueError`. -/
def pyInt (s : List Char) : Option Int :=
  match pyStrip s with
  | [] => none
  | c :: rest =>
    if c = '+' then (pyIntDigits rest).map (fun n => (n : Int))
    else if c = '-' then (pyIntDigits rest).map (fun n => -(n : Int))
    else (pyIntDigits (c :: rest)).map (fun n => (n : Int))

/-- `SemVersion.parse`: split the raw string on `.`; exit unless there are
exactly three pieces (the error branch is `none`); convert each piece with
`int()` (a `ValueError` is also `none`). Returns the components in index
order `(major, minor, patch)`. -/
def parse (s : List Char) : Option (Int × Int × Int) :=
  match splitOnDot s with
  | [a, b, c] =>
    match pyInt a, pyInt b, pyInt c with
    | some x, some y, some z => some (x, y, z)
    | _, _, _ => none
  | _ => none

/-- `SemVersion.validate_semver_change(current_version, new_version, args)`:
first the raw-string equality gate, then parse both versions, then the
per-kind precondition and the `cold + 1 == cnew` sequential-increment check.
The `patch` precondition transcribes line 118 of the source literally:
`cmaj == nmaj and cmin == cmin` (the second conjunct compares `cmin` with
itself). -/
def validate_semver_change (current newv : List Char) (kind : BumpKind) :
    Except BuildError Unit :=
  if current = newv then Except.error BuildError.noChange
  else
    match parse current, parse newv with
    | some (cmaj, cmin, cpatch), some (nmaj, nmin, npatch) =>
      let pre : Bool :=
        match kind with
        | BumpKind.patch => cmaj == nmaj && cmin == cmin
        | BumpKind.minor => cmaj == nmaj && npatch == 0
        | BumpKind.major => cmin == 0 && npatch == 0
      if pre then
        let pair : Int × Int :=
          match kind with
          | BumpKind.patch => (cpatch, npatch)
          | BumpKind.minor => (cmin, nmin)
          | BumpKind.major => (cmaj, nmaj)
        if pair.1 + 1 == pair.2 then Except.ok ()
        else Except.error BuildError.nonSequentialIncrement
      else Except.error BuildError.invalidBumpPreconditions
    | _, _ => Except.error BuildError.malformedVersion

/-- The spec's `SemanticVersion.parse` operation: the script's validation
pipeline for a raw version string — `is_valid` gate followed by `parse`,
failing with `MalformedVersion` otherwise. -/
def parseSemVer (s : List Char) : Except BuildError (Int × Int × Int) :=
  if is_valid s then
    match parse s with
    | some v => Except.ok v
    | none => Except.error BuildError.malformedVersion
  else Except.error BuildError.malformedVersion

/-- `SemVerFile.overwrite_version`: re-validate the new version, exit if it is
not valid, otherwise write its raw string to the version file. Returns the
written file content. -/
def overwrite_version (newRaw : List Char) : Except BuildError (List Char) :=
  if is_valid newRaw then Except.ok newRaw
  else Except.error BuildError.malformedVersion

/-- Outcome of a run of `main`: the final content of the version record
(the single line of `version.txt`) and whether the run reached the end. -/
structure RunResult where
  fileContent : List Char
  succeeded : Bool
deriving DecidableEq, Repr

/-- `main`: the straight-line pipeline. `currentRaw` is the single line read
from `version.txt` by `SemVerFile.get_current_sem_ver`; `tag` is the `-t`
argument; `credsOk`, `loginOk`, `buildOk`, `showOk`, `pushOk` model whether
`get_dockerhub_creds`, `docker login`, `docker build`, `docker image ls`
(run with `check=True`) and `docker push` succeed. Every `exit(1)` (or
uncaught exception) terminates the run before the final
`SemVerFile.overwrite_version(new_version)`, leaving the version record
unchanged. -/
def mainRun (currentRaw tag : List Char) (kind : BumpKind)
    (credsOk loginOk buildOk showOk pushOk : Bool) : RunResult :=
  if ¬ is_valid currentRaw then ⟨currentRaw, false⟩
  else if ¬ is_valid tag then ⟨currentRaw, false⟩
  else
    match validate_semver_change currentRaw tag kind with
    | Except.error _ => ⟨currentRaw, false⟩
    | Except.ok () =>
      if ¬ credsOk then ⟨currentRaw, false⟩
      else if ¬ loginOk then ⟨currentRaw, false⟩
      else if ¬ buildOk then ⟨currentRaw, false⟩
      else if ¬ showOk then ⟨currentRaw, false⟩
      else if ¬ pushOk then ⟨currentRaw, false⟩
      else
        match overwrite_version tag with
        | Except.ok written => ⟨written, true⟩
        | Except.error _ => ⟨currentRaw, false⟩

/-- The per-kind bump preconditions exactly as the spec's transition table
states them (current/proposed components given as `(major, minor, patch)`
triples); written from the spec's words, to be compared against
`validate_semver_change`. -/
def specBumpPre : BumpKind → Int × Int × Int → Int × Int × Int → Prop
  | BumpKind.patch, (cmaj, cmin, _), (nmaj, nmin, _) => cmaj = nmaj ∧ cmin = nmin
  | BumpKind.minor, (cmaj, _, _), (nmaj, _, npatch) => cmaj = nmaj ∧ npatch = 0
  | BumpKind.major, (_, cmin, _), (_, _, npatch) => cmin = 0 ∧ npatch = 0

/-- The compared `(old, new)` value pair the spec's transition table selects
for each bump kind. -/
def specComparedPair : BumpKind → Int × Int × Int → Int × Int × Int → Int × Int
  | BumpKind.patch, (_, _, cpatch), (_, _, npatch) => (cpatch, npatch)
  | BumpKind.minor, (_, cmin, _), (_, nmin, _) => (cmin, nmin)
  | BumpKind.major, (cmaj, _, _), (nmaj, _, _) => (cmaj, nmaj)

/-- Helper for reasoning about `splitOnDot` of a string extended by one
character: append that character to the last piece. -/
def appendToLast (ch : Char) : List (List Char) → List (List Char)
  | [] => [[ch]]
  | [p] => [p ++ [ch]]
  | p :: ps => p :: appendToLast ch ps

theorem splitOnDot_ne_nil (s : List Char) : splitOnDot s ≠ [] := by
  induction s with
  | nil => simp [splitOnDot]
  | cons c rest _ =>
    by_cases h : c = '.'
    · simp [splitOnDot, h]
    · simp only [splitOnDot, if_neg h]
      cases splitOnDot rest <;> simp

theorem appendToLast_cons (ch : Char) (p : List Char) (l : List (List Char))
    (h : l ≠ []) : appendToLast ch (p :: l) = p :: appendToLast ch l := by
  cases l with
  | nil => exact absurd rfl h
  | cons q qs => rfl

theorem splitOnDot_cons_dot (rest : List Char) :
    splitOnDot ('.' :: rest) = [] :: splitOnDot rest := by
  simp [splitOnDot]

theorem splitOnDot_cons_ne (c : Char) (rest : List Char) (h : c ≠ '.') :
    splitOnDot (c :: rest) =
      match splitOnDot rest with
      | [] => [[c]]
      | p :: ps => (c :: p) :: ps := by
  simp [splitOnDot, h]

theorem splitOnDot_snoc (s : List Char) (ch : Char) (h : ch ≠ '.') :
    splitOnDot (s ++ [ch]) = appendToLast ch (splitOnDot s) := by
  induction s with
  | nil => simp [splitOnDot, appendToLast, if_neg h]
  | cons c rest ih =>
    by_cases hc : c = '.'
    · subst hc
      rw [List.cons_append, splitOnDot_cons_dot, splitOnDot_cons_dot, ih,
        appendToLast_cons _ _ _ (splitOnDot_ne_nil rest)]
    · rw [List.cons_append, splitOnDot_cons_ne c _ hc, splitOnDot_cons_ne c rest hc, ih]
      rcases hr : splitOnDot rest with _ | ⟨p0, ps0⟩
      · exact absurd hr (splitOnDot_ne_nil rest)
      · cases ps0 with
        | nil => simp [appendToLast]
        | cons q qs => rfl

theorem isPySpace_eq_false_of_isDigit {c : Char} (h : c.isDigit = true) :
    isPySpace c = false := by
  have h1 : c ≠ ' ' := fun e => by subst e; exact absurd h (by decide)
  have h2 : c ≠ '\t' := fun e => by subst e; exact absurd h (by decide)
  have h3 : c ≠ '\n' := fun e => by subst e; exact absurd h (by decide)
  have h4 : c ≠ '\r' := fun e => by subst e; exact absurd h (by decide)
  have h5 : c ≠ '\x0b' := fun e => by subst e; exact absurd h (by decide)
  have h6 : c ≠ '\x0c' := fun e => by subst e; exact absurd h (by decide)
  simp [isPySpace, h1, h2, h3, h4, h5, h6]

theorem not_dot_of_isDigit {c : Char} (h : c.isDigit = true) : c ≠ '.' :=
  fun e => by subst e; exact absurd h (by decide)

theorem numeral_shape {l : List Char} (h : isNumeral l = true) :
    l ≠ [] ∧ l.all Char.isDigit = true := by
  cases l with
  | nil => exact absurd h (by decide)
  | cons c rest =>
    refine ⟨by simp, ?_⟩
    by_cases hc : c = '0'
    · subst hc
      simp [isNumeral] at h
      subst h
      decide
    · simp only [isNumeral, if_neg hc, Bool.and_eq_true] at h
      simp [List.all_cons, h.1, h.2]

theorem dropWhile_eq_self_of_not (p : Char → Bool) (l : List Char)
    (h : ∀ c ∈ l, p c = false) : l.dropWhile p = l := by
  cases l with
  | nil => rfl
  | cons c rest => simp [List.dropWhile_cons, h c (by simp)]

theorem pyStrip_of_no_space (l : List Char)
    (h : ∀ c ∈ l, isPySpace c = false) : pyStrip l = l := by
  unfold pyStrip
  rw [dropWhile_eq_self_of_not _ _ h,
    dropWhile_eq_self_of_not _ _ (fun c hc => h c (List.mem_reverse.mp hc)),
    List.reverse_reverse]

theorem pyStrip_digits_snoc_newline (l : List Char)
    (hne : l ≠ []) (h : ∀ c ∈ l, isPySpace c = false) :
    pyStrip (l ++ ['\n']) = l := by
  cases l with
  | nil => exact absurd rfl hne
  | cons c rest =>
    unfold pyStrip
    rw [List.cons_append, List.dropWhile_cons, h c (by simp)]
    simp only [Bool.false_eq_true, if_false]
    have hrev : (c :: (rest ++ ['\n'])).reverse = '\n' :: (rest.reverse ++ [c]) := by
      simp
    rw [hrev, List.dropWhile_cons]
    have hnl : isPySpace '\n' = true := by decide
    rw [hnl]
    simp only [if_true]
    rw [dropWhile_eq_self_of_not]
    · simp
    · intro d hd
      rcases List.mem_append.mp hd with hd | hd
      · exact h d (by simp [List.mem_reverse.mp hd])
      · simp at hd
        subst hd
        exact h d (by simp)

theorem pyDigitsAux_digits (l : List Char) :
    ∀ acc : Nat, l.all Char.isDigit = true →
      pyDigitsAux acc l = some (l.foldl (fun a c => a * 10 + digitVal c) acc) := by
  induction l with
  | nil => intro acc _; rfl
  | cons c rest ih =>
    intro acc hall
    rw [List.all_cons, Bool.and_eq_true] at hall
    rw [List.foldl_cons]
    unfold pyDigitsAux
    rw [hall.1]
    simp only [if_true]
    exact ih _ hall.2

theorem pyInt_numeral (l : List Char) (h : isNumeral l = true) :
    pyInt l = some ((valOfDigits l : Int)) ∧
      pyInt (l ++ ['\n']) = some ((valOfDigits l : Int)) := by
  obtain ⟨hne, hall⟩ := numeral_shape h
  have hnospace : ∀ c ∈ l, isPySpace c = false := by
    intro c hc
    exact isPySpace_eq_false_of_isDigit (by
      rw [List.all_eq_true] at hall
      exact hall c hc)
  cases l with
  | nil => exact absurd rfl hne
  | cons c rest =>
    rw [List.all_cons, Bool.and_eq_true] at hall
    have hcd : c.isDigit = true := hall.1
    have hplus : c ≠ '+' := fun e => by subst e; exact absurd hcd (by decide)
    have hminus : c ≠ '-' := fun e => by subst e; exact absurd hcd (by decide)
    have hnum : pyIntDigits (c :: rest) =
        some (valOfDigits (c :: rest)) := by
      show (if c.isDigit = true then pyDigitsAux (digitVal c) rest else none) = _
      rw [if_pos hcd]
      rw [pyDigitsAux_digits rest (digitVal c) hall.2]
      unfold valOfDigits
      rw [List.foldl_cons]
      simp [digitVal]
    constructor
    · unfold pyInt
      rw [pyStrip_of_no_space _ hnospace]
      simp only [if_neg hplus, if_neg hminus]
      rw [hnum]
      rfl
    · unfold pyInt
      rw [pyStrip_digits_snoc_newline _ (by simp) hnospace]
      simp only [if_neg hplus, if_neg hminus]
      rw [hnum]
      rfl

theorem matchesSemverPattern_iff (s : List Char) :
    matchesSemverPattern s = true ↔
      ∃ a b c, splitOnDot s = [a, b, c] ∧
        isNumeral a = true ∧ isNumeral b = true ∧ isNumeral c = true := by
  unfold matchesSemverPattern
  constructor
  · intro h
    split at h
    next a b c heq =>
      rw [Bool.and_eq_true, Bool.and_eq_true] at h
      exact ⟨a, b, c, heq, h.1.1, h.1.2, h.2⟩
    next => exact absurd h (by decide)
  · rintro ⟨a, b, c, heq, ha, hb, hc⟩
    rw [heq]
    simp [ha, hb, hc]

theorem is_valid_iff (s : List Char) :
    is_valid s = true ↔
      (matchesSemverPattern s = true ∨
        ∃ r, s = r ++ ['\n'] ∧ matchesSemverPattern r = true) := by
  unfold is_valid
  rw [Bool.or_eq_true]
  constructor
  · rintro (h | h)
    · exact Or.inl h
    · right
      split at h
      next r heq =>
        refine ⟨r.reverse, ?_, h⟩
        rw [← List.reverse_reverse s, heq, List.reverse_cons]
      next => exact absurd h (by decide)
  · rintro (h | ⟨r, rfl, h⟩)
    · exact Or.inl h
    · right
      have hrev : (r ++ ['\n']).reverse = '\n' :: r.reverse := by simp
      rw [hrev]
      simpa using h

theorem parse_of_is_valid {s : List Char} (h : is_valid s = true) :
    ∃ x y z : Int, parse s = some (x, y, z) ∧
      0 ≤ x ∧ 0 ≤ y ∧ 0 ≤ z ∧ (splitOnDot s).length = 3 := by
  rcases (is_valid_iff s).mp h with hm | ⟨r, rfl, hm⟩
  · obtain ⟨a, b, c, heq, ha, hb, hc⟩ := (matchesSemverPattern_iff s).mp hm
    refine ⟨(valOfDigits a : Int), (valOfDigits b : Int), (valOfDigits c : Int),
      ?_, Int.natCast_nonneg _, Int.natCast_nonneg _, Int.natCast_nonneg _,
      by rw [heq]; rfl⟩
    unfold parse
    rw [heq]
    show (match pyInt a, pyInt b, pyInt c with
      | some x, some y, some z => some (x, y, z)
      | _, _, _ => none) = _
    rw [(pyInt_numeral a ha).1, (pyInt_numeral b hb).1, (pyInt_numeral c hc).1]
  · obtain ⟨a, b, c, heq, ha, hb, hc⟩ := (matchesSemverPattern_iff r).mp hm
    have hsplit : splitOnDot (r ++ ['\n']) = [a, b, c ++ ['\n']] := by
      rw [splitOnDot_snoc r '\n' (by decide), heq]
      rfl
    refine ⟨(valOfDigits a : Int), (valOfDigits b : Int), (valOfDigits c : Int),
      ?_, Int.natCast_nonneg _, Int.natCast_nonneg _, Int.natCast_nonneg _,
      by rw [hsplit]; rfl⟩
    unfold parse
    rw [hsplit]
    show (match pyInt a, pyInt b, pyInt (c ++ ['\n']) with
      | some x, some y, some z => some (x, y, z)
      | _, _, _ => none) = _
    rw [(pyInt_numeral a ha).1, (pyInt_numeral b hb).1, (pyInt_numeral c hc).2]

theorem validate_patch_eq (c n : List Char)
    (cmaj cmin cpatch nmaj nmin npatch : Int) (hcn : c ≠ n)
    (hc : parse c = some (cmaj, cmin, cpatch))
    (hn : parse n = some (nmaj, nmin, npatch)) :
    validate_semver_change c n BumpKind.patch =
      if cmaj == nmaj && cmin == cmin then
        if cpatch + 1 == npatch then Except.ok ()
        else Except.error BuildError.nonSequentialIncrement
      else Except.error BuildError.invalidBumpPreconditions := by
  unfold validate_semver_change
  rw [if_neg hcn, hc, hn]

theorem validate_minor_eq (c n : List Char)
    (cmaj cmin cpatch nmaj nmin npatch : Int) (hcn : c ≠ n)
    (hc : parse c = some (cmaj, cmin, cpatch))
    (hn : parse n = some (nmaj, nmin, npatch)) :
    validate_semver_change c n BumpKind.minor =
      if cmaj == nmaj && npatch == 0 then
        if cmin + 1 == nmin then Except.ok ()
        else Except.error BuildError.nonSequentialIncrement
      else Except.error BuildError.invalidBumpPreconditions := by
  unfold validate_semver_change
  rw [if_neg hcn, hc, hn]

theorem validate_major_eq (c n : List Char)
    (cmaj cmin cpatch nmaj nmin npatch : Int) (hcn : c ≠ n)
    (hc : parse c = some (cmaj, cmin, cpatch))
    (hn : parse n = some (nmaj, nmin, npatch)) :
    validate_semver_change c n BumpKind.major =
      if cmin == 0 && npatch == 0 then
        if cmaj + 1 == nmaj then Except.ok ()
        else Except.error BuildError.nonSequentialIncrement
      else Except.error BuildError.invalidBumpPreconditions := by
  unfold validate_semver_change
  rw [if_neg hcn, hc, hn]

theorem validate_noChange_iff (c n : List Char) (k : BumpKind) :
    validate_semver_change c n k = Except.error BuildError.noChange ↔ c = n := by
  by_cases hcn : c = n
  · simp [validate_semver_change, hcn]
  · simp only [hcn, iff_false]
    intro hcontra
    rcases hc : parse c with _ | ⟨⟨cmaj, cmin, cpatch⟩⟩
    · rcases hn : parse n with _ | v
      · rw [validate_semver_change, if_neg hcn, hc, hn] at hcontra
        exact absurd hcontra (by simp)
      · rw [validate_semver_change, if_neg hcn, hc, hn] at hcontra
        exact absurd hcontra (by simp)
    · rcases hn : parse n with _ | ⟨⟨nmaj, nmin, npatch⟩⟩
      · rw [validate_semver_change, if_neg hcn, hc, hn] at hcontra
        exact absurd hcontra (by simp)
      · revert hcontra
        cases k with
        | patch =>
          rw [validate_patch_eq c n cmaj cmin cpatch nmaj nmin npatch hcn hc hn]
          split
          · split <;> simp
          · simp
        | minor =>
          rw [validate_minor_eq c n cmaj cmin cpatch nmaj nmin npatch hcn hc hn]
          split
          · split <;> simp
          · simp
        | major =>
          rw [validate_major_eq c n cmaj cmin cpatch nmaj nmin npatch hcn hc hn]
          split
          · split <;> simp
          · simp

theorem splitOnDot_of_no_dot (l : List Char) (h : ∀ ch ∈ l, ch ≠ '.') :
    splitOnDot l = [l] := by
  induction l with
  | nil => rfl
  | cons c rest ih =>
    rw [splitOnDot_cons_ne c rest (h c (by simp)),
      ih (fun ch hch => h ch (by simp [hch]))]

theorem splitOnDot_append_dot (a t : List Char) (h : ∀ ch ∈ a, ch ≠ '.') :
    splitOnDot (a ++ '.' :: t) = a :: splitOnDot t := by
  induction a with
  | nil => simp [splitOnDot_cons_dot]
  | cons c rest ih =>
    rw [List.cons_append, splitOnDot_cons_ne c _ (h c (by simp)),
      ih (fun ch hch => h ch (by simp [hch]))]

theorem numeral_no_dot {l : List Char} (h : isNumeral l = true) :
    ∀ ch ∈ l, ch ≠ '.' := by
  intro ch hch
  obtain ⟨-, hall⟩ := numeral_shape h
  rw [List.all_eq_true] at hall
  exact not_dot_of_isDigit (hall ch hch)

theorem incrementCheck_spec (cold cnew : Int) :
    ((if cold + 1 == cnew then Except.ok () else
        (Except.error BuildError.nonSequentialIncrement : Except BuildError Unit)) =
          Except.ok () ↔ cnew = cold + 1) ∧
    (cnew ≠ cold + 1 →
      (if cold + 1 == cnew then Except.ok () else
        (Except.error BuildError.nonSequentialIncrement : Except BuildError Unit)) =
          Except.error BuildError.nonSequentialIncrement) := by
  by_cases h : cold + 1 = cnew
  · rw [if_pos (by simp [h])]
    constructor
    · constructor
      · intro _
        omega
      · intro _
        rfl
    · intro hne
      exact absurd h.symm hne
  · rw [if_neg (by simpa using h)]
    constructor
    · constructor
      · intro hcontra
        exact absurd hcontra (by simp)
      · intro he
        exact absurd he.symm h
    · intro _
      rfl

theorem splitOnDot_three_numerals (a b c : List Char)
    (ha : isNumeral a = true) (hb : isNumeral b = true) (hc : isNumeral c = true) :
    splitOnDot (a ++ '.' :: (b ++ '.' :: c)) = [a, b, c] := by
  rw [splitOnDot_append_dot a _ (numeral_no_dot ha),
    splitOnDot_append_dot b _ (numeral_no_dot hb),
    splitOnDot_of_no_dot c (numeral_no_dot hc)]

/-! ## Claims -/

/-- Claim C1 (code bug): the claim — backed by the spec's transition table and
its worked example — demands that a `patch` transition with equal majors but
different minors fail with `InvalidBumpPreconditions`. The source's patch
precondition (line 118, `cmaj == nmaj and cmin == cmin`) compares `cmin` with
itself, so the minor components are never compared: `("1.0.2","1.1.3",patch)`
is accepted outright, and the spec's own example `("1.0.2","1.1.0",patch)` is
rejected with `NonSequentialIncrement` instead of `InvalidBumpPreconditions`. -/
theorem c1_patch_ignores_minor_code_bug :
    validate_semver_change "1.0.2".toList "1.1.3".toList BumpKind.patch =
      Except.ok () ∧
    validate_semver_change "1.0.2".toList "1.1.0".toList BumpKind.patch =
      Except.error BuildError.nonSequentialIncrement := by
  decide

/-- Claim C2 (counterexample): `"1.0.2\n"` does not whole-match the semver
pattern, yet validation-plus-parse accepts it with components `(1, 0, 2)` —
Python's `$` matches just before a trailing newline, so the claim as stated
is false for strings with one trailing newline. -/
theorem c2_counterexample_trailing_newline :
    matchesSemverPattern "1.0.2\n".toList = false ∧
    parseSemVer "1.0.2\n".toList = Except.ok (1, 0, 2) := by
  decide

/-- Claim C2 (amended): parsing fails with `MalformedVersion` exactly when the
input neither whole-matches the pattern nor is a whole match followed by a
single trailing newline. -/
theorem c2_amended_malformed_iff (s : List Char) :
    parseSemVer s = Except.error BuildError.malformedVersion ↔
      ¬(matchesSemverPattern s = true ∨
        ∃ r, s = r ++ ['\n'] ∧ matchesSemverPattern r = true) := by
  rw [← is_valid_iff]
  by_cases hv : is_valid s = true
  · obtain ⟨x, y, z, hp, -⟩ := parse_of_is_valid hv
    simp [parseSemVer, hv, hp]
  · simp [parseSemVer, hv]

/-- Claim C3 (counterexample): `"1.0.0\n"` and `"1.0.0"` are both accepted by
`is_valid` and parse to identical components, yet the transition between them
is not rejected as `NoChange` (the source line 107 compares raw strings, and
these raw strings differ); it fails later with the increment error. -/
theorem c3_counterexample_equal_components_distinct_raw :
    is_valid "1.0.0\n".toList = true ∧
    is_valid "1.0.0".toList = true ∧
    parse "1.0.0\n".toList = parse "1.0.0".toList ∧
    validate_semver_change "1.0.0\n".toList "1.0.0".toList BumpKind.patch ≠
      Except.error BuildError.noChange := by
  decide

/-- Claim C3 (amended): `validate_semver_change` fails with `NoChange` exactly
when the raw strings of the two versions are equal, regardless of the bump
kind; structurally equal versions with different raw text are not rejected as
`NoChange`. -/
theorem c3_amended_noChange_iff_raw_eq (c n : List Char) (k : BumpKind) :
    validate_semver_change c n k = Except.error BuildError.noChange ↔ c = n :=
  validate_noChange_iff c n k

/-- Claim C4 (counterexample): a major component of `2^64` — far above any
platform integer limit — parses successfully instead of failing with
`MalformedVersion`; Python integers are arbitrary-precision. -/
theorem c4_counterexample_huge_component_parses :
    parseSemVer "18446744073709551616.0.0".toList =
      Except.ok (18446744073709551616, 0, 0) ∧
    (2 : Int) ^ 64 ≤ 18446744073709551616 := by
  decide

/-- Claim C4 (amended): parsing imposes no magnitude bound at all — for any
three pattern-valid components, however large, parse succeeds and returns
their exact arbitrary-precision values. -/
theorem c4_amended_no_magnitude_bound (a b c : List Char)
    (ha : isNumeral a = true) (hb : isNumeral b = true) (hc : isNumeral c = true) :
    parseSemVer (a ++ '.' :: (b ++ '.' :: c)) =
      Except.ok ((valOfDigits a : Int), (valOfDigits b : Int), (valOfDigits c : Int)) := by
  have hs : splitOnDot (a ++ '.' :: (b ++ '.' :: c)) = [a, b, c] :=
    splitOnDot_three_numerals a b c ha hb hc
  have hm : matchesSemverPattern (a ++ '.' :: (b ++ '.' :: c)) = true := by
    unfold matchesSemverPattern
    rw [hs]
    simp [ha, hb, hc]
  have hv : is_valid (a ++ '.' :: (b ++ '.' :: c)) = true := by
    unfold is_valid
    rw [hm]
    rfl
  have hp : parse (a ++ '.' :: (b ++ '.' :: c)) =
      some ((valOfDigits a : Int), (valOfDigits b : Int), (valOfDigits c : Int)) := by
    unfold parse
    rw [hs]
    show (match pyInt a, pyInt b, pyInt c with
      | some x, some y, some z => some (x, y, z)
      | _, _, _ => none) = _
    rw [(pyInt_numeral a ha).1, (pyInt_numeral b hb).1, (pyInt_numeral c hc).1]
  unfold parseSemVer
  rw [if_pos hv, hp]

/-- Witness for C4 (amended) at a component of `2^64`. -/
theorem c4_amended_no_magnitude_bound_witness :
    parseSemVer ("18446744073709551616".toList ++ '.' :: ("0".toList ++ '.' :: "0".toList)) =
      Except.ok ((valOfDigits "18446744073709551616".toList : Int),
        (valOfDigits "0".toList : Int), (valOfDigits "0".toList : Int)) :=
  c4_amended_no_magnitude_bound _ _ _ (by decide) (by decide) (by decide)

/-- Claim C5: a run of `main` either completes — in which case each external
step (credentials, login, build, image listing, push) had succeeded and the
version record was overwritten with exactly the requested tag — or it aborts
at some earlier gate and the version record is unchanged. -/
theorem c5_record_gated_on_push (c t : List Char) (k : BumpKind)
    (cr l b sh p : Bool) :
    ((mainRun c t k cr l b sh p).fileContent = t ∧
      (mainRun c t k cr l b sh p).succeeded = true ∧
      cr = true ∧ l = true ∧ b = true ∧ sh = true ∧ p = true) ∨
    ((mainRun c t k cr l b sh p).fileContent = c ∧
      (mainRun c t k cr l b sh p).succeeded = false) := by
  by_cases h1 : is_valid c = true
  case neg =>
    right
    simp [mainRun, h1]
  by_cases h2 : is_valid t = true
  case neg =>
    right
    simp [mainRun, h1, h2]
  cases hv : validate_semver_change c t k with
  | error e =>
    right
    simp [mainRun, h1, h2, hv]
  | ok u =>
    cases u
    cases cr <;> cases l <;> cases b <;> cases sh <;> cases p <;>
      simp [mainRun, h1, h2, hv, overwrite_version]

/-- Claim C6: for bump kind `minor`, validation succeeds precisely when the
majors agree, the proposed patch is `0`, and the proposed minor is the current
minor plus one — the current patch is unconstrained. -/
theorem c6_minor_bump_characterization (c n : List Char)
    (cmaj cmin cpatch nmaj nmin npatch : Int)
    (hc : parse c = some (cmaj, cmin, cpatch))
    (hn : parse n = some (nmaj, nmin, npatch)) :
    validate_semver_change c n BumpKind.minor = Except.ok () ↔
      (cmaj = nmaj ∧ npatch = 0 ∧ nmin = cmin + 1) := by
  by_cases hcn : c = n
  · subst hcn
    rw [hc] at hn
    rw [Option.some_inj, Prod.mk.injEq, Prod.mk.injEq] at hn
    constructor
    · intro hcontra
      rw [validate_semver_change, if_pos rfl] at hcontra
      exact absurd hcontra (by simp)
    · rintro ⟨-, -, h3⟩
      omega
  · rw [validate_minor_eq c n cmaj cmin cpatch nmaj nmin npatch hcn hc hn]
    by_cases ha : cmaj = nmaj
    · by_cases hb : npatch = 0
      · rw [if_pos (by simp [ha, hb])]
        have := (incrementCheck_spec cmin nmin).1
        rw [this]
        constructor
        · intro h3
          exact ⟨ha, hb, h3⟩
        · rintro ⟨-, -, h3⟩
          exact h3
      · rw [if_neg (by simp [hb])]
        constructor
        · intro hcontra
          exact absurd hcontra (by simp)
        · rintro ⟨-, hb2, -⟩
          exact absurd hb2 hb
    · rw [if_neg (by simp [ha])]
      constructor
      · intro hcontra
        exact absurd hcontra (by simp)
      · rintro ⟨ha2, -, -⟩
        exact absurd ha2 ha

/-- Witness for C6: `("1.2.5","1.3.0",minor)` succeeds even though the current
patch component is nonzero. -/
theorem c6_minor_bump_characterization_witness :
    validate_semver_change "1.2.5".toList "1.3.0".toList BumpKind.minor =
      Except.ok () :=
  (c6_minor_bump_characterization "1.2.5".toList "1.3.0".toList 1 2 5 1 3 0
    (by decide) (by decide)).mpr (by decide)

/-- Claim C7: for bump kind `major`, the precondition is `current.minor == 0`
and `proposed.patch == 0` (checking the current version's minor); when it
fails the error is `InvalidBumpPreconditions`, and when it holds validation
succeeds exactly when the proposed major is the current major plus one. -/
theorem c7_major_bump_characterization (c n : List Char)
    (cmaj cmin cpatch nmaj nmin npatch : Int) (hcn : c ≠ n)
    (hc : parse c = some (cmaj, cmin, cpatch))
    (hn : parse n = some (nmaj, nmin, npatch)) :
    (¬(cmin = 0 ∧ npatch = 0) →
      validate_semver_change c n BumpKind.major =
        Except.error BuildError.invalidBumpPreconditions) ∧
    ((cmin = 0 ∧ npatch = 0) →
      (validate_semver_change c n BumpKind.major = Except.ok () ↔
        nmaj = cmaj + 1)) := by
  rw [validate_major_eq c n cmaj cmin cpatch nmaj nmin npatch hcn hc hn]
  constructor
  · intro hpre
    rw [if_neg (by simpa using hpre)]
  · rintro ⟨h1, h2⟩
    rw [if_pos (by simp [h1, h2])]
    exact (incrementCheck_spec cmaj nmaj).1

/-- Witness for C7: `("2.1.0","3.0.0",major)` fails with
`InvalidBumpPreconditions` because the current minor is nonzero. -/
theorem c7_major_bump_characterization_witness :
    validate_semver_change "2.1.0".toList "3.0.0".toList BumpKind.major =
      Except.error BuildError.invalidBumpPreconditions :=
  (c7_major_bump_characterization "2.1.0".toList "3.0.0".toList 2 1 0 3 0 0
    (by decide) (by decide) (by decide)).1 (by decide)

/-- Claim C8: whenever the spec's bump-kind preconditions hold (and the raw
strings differ, so the `NoChange` gate passes), validation succeeds exactly
when the compared new value is the compared old value plus one, and otherwise
fails with `NonSequentialIncrement`. -/
theorem c8_sequential_increment_characterization (c n : List Char)
    (k : BumpKind) (cmaj cmin cpatch nmaj nmin npatch : Int) (hcn : c ≠ n)
    (hc : parse c = some (cmaj, cmin, cpatch))
    (hn : parse n = some (nmaj, nmin, npatch))
    (hpre : specBumpPre k (cmaj, cmin, cpatch) (nmaj, nmin, npatch)) :
    (validate_semver_change c n k = Except.ok () ↔
      (specComparedPair k (cmaj, cmin, cpatch) (nmaj, nmin, npatch)).2 =
        (specComparedPair k (cmaj, cmin, cpatch) (nmaj, nmin, npatch)).1 + 1) ∧
    ((specComparedPair k (cmaj, cmin, cpatch) (nmaj, nmin, npatch)).2 ≠
        (specComparedPair k (cmaj, cmin, cpatch) (nmaj, nmin, npatch)).1 + 1 →
      validate_semver_change c n k =
        Except.error BuildError.nonSequentialIncrement) := by
  cases k with
  | major =>
    obtain ⟨h1, h2⟩ := hpre
    rw [validate_major_eq c n cmaj cmin cpatch nmaj nmin npatch hcn hc hn,
      if_pos (by simp [h1, h2])]
    exact incrementCheck_spec cmaj nmaj
  | minor =>
    obtain ⟨h1, h2⟩ := hpre
    rw [validate_minor_eq c n cmaj cmin cpatch nmaj nmin npatch hcn hc hn,
      if_pos (by simp [h1, h2])]
    exact incrementCheck_spec cmin nmin
  | patch =>
    obtain ⟨h1, h2⟩ := hpre
    rw [validate_patch_eq c n cmaj cmin cpatch nmaj nmin npatch hcn hc hn,
      if_pos (by simp [h1])]
    exact incrementCheck_spec cpatch npatch

/-- Witness for C8: `("1.0.0","1.0.2",patch)` has its preconditions met but a
delta of 2, so it fails with `NonSequentialIncrement`. -/
theorem c8_sequential_increment_characterization_witness :
    validate_semver_change "1.0.0".toList "1.0.2".toList BumpKind.patch =
      Except.error BuildError.nonSequentialIncrement :=
  (c8_sequential_increment_characterization "1.0.0".toList "1.0.2".toList
    BumpKind.patch 1 0 0 1 0 2 (by decide) (by decide) (by decide)
    (by exact ⟨rfl, rfl⟩)).2 (by decide)

/-- Claim C9 (counterexample): `overwrite_version` happily writes the raw
string `"1.0.1\n"`, which does not whole-match the three-component semver
pattern — `is_valid` admits one trailing newline, so the persisted record is
not guaranteed to match the strict pattern. -/
theorem c9_counterexample_trailing_newline_written :
    overwrite_version "1.0.1\n".toList = Except.ok "1.0.1\n".toList ∧
    matchesSemverPattern "1.0.1\n".toList = false := by
  decide

/-- Claim C9 (amended): every write that `overwrite_version` actually performs
is of a string accepted by `is_valid` (the pattern, possibly with one trailing
newline), and the written content is exactly the requested raw string. -/
theorem c9_amended_written_is_valid (newRaw w : List Char)
    (h : overwrite_version newRaw = Except.ok w) :
    w = newRaw ∧ is_valid w = true := by
  unfold overwrite_version at h
  by_cases hv : is_valid newRaw = true
  · rw [if_pos hv] at h
    rw [Except.ok.injEq] at h
    exact ⟨h.symm, h ▸ hv⟩
  · rw [if_neg hv] at h
    exact absurd h (by simp)

/-- Witness for C9 (amended) at the write of `"1.0.1"`. -/
theorem c9_amended_written_is_valid_witness :
    "1.0.1".toList = "1.0.1".toList ∧ is_valid "1.0.1".toList = true :=
  c9_amended_written_is_valid "1.0.1".toList "1.0.1".toList (by decide)

/-- Claim C10: every raw string accepted by `is_valid` splits into exactly
three pieces (so parse's error exit is unreachable) and parses to three
non-negative integer components. -/
theorem c10_valid_implies_parse_ok (s : List Char) (h : is_valid s = true) :
    ∃ x y z : Int, parse s = some (x, y, z) ∧
      0 ≤ x ∧ 0 ≤ y ∧ 0 ≤ z ∧ (splitOnDot s).length = 3 :=
  parse_of_is_valid h

/-- Witness for C10 at `"1.0.2\n"` (the file-read shape, with its newline). -/
theorem c10_valid_implies_parse_ok_witness :
    is_valid "1.0.2\n".toList = true ∧
    ∃ x y z : Int, parse "1.0.2\n".toList = some (x, y, z) ∧
      0 ≤ x ∧ 0 ≤ y ∧ 0 ≤ z ∧ (splitOnDot "1.0.2\n".toList).length = 3 :=
  ⟨by decide, c10_valid_implies_parse_ok _ (by decide)⟩

end DockerImgVersion
